import Mathlib

/-!
Hieroglyph 3: the sampler parameter writer and the KinectPlayground application.

A shallow embedding of

* `Source/Rendering/SamplerParameterWriterDX11.cpp`: the constructor, `SetValue` and
  `WriteParameter` of `SamplerParameterWriterDX11`;
* `Applications/KinectPlayground/App.cpp`: `App::HandleEvent`, `App::Update` and
  `App::GetName`.

Objects are records of the members the functions touch, member functions are functions
from the old object to the new one, and calls into engine objects whose code is elsewhere
(the parameter manager, the parent application class, the rendering pipeline) are either
taken as arguments or recorded in a log.
-/

namespace Glyph3

/-! ## SamplerParameterWriterDX11 -/

/-- A `RenderParameterDX11*`: the address held by the pointer, `0` for the null pointer. -/
abbrev RenderParameterRef := Nat

/-- The members of `SamplerParameterWriterDX11` that its member functions use:
`m_pParameter` (a `RenderParameterDX11*`) and `m_Value` (a C++ `int`; the functions only
store and forward it, so no arithmetic can overflow and it is an `Int` here). -/
structure SamplerParameterWriterDX11 where
  m_pParameter : RenderParameterRef
  m_Value : Int
deriving DecidableEq, Repr

/-- The interface `IParameterManager`, as far as the sampler writer uses it: the virtual
method `SetSamplerParameter( RenderParameterDX11* pParameter, int* pID )` acting on a
manager whose state has type `σ`.  The second argument is a pointer to a non-const `int`,
so the method can read the `int` and can write it: here it is given the `int` found at
`pID` and returns the manager state after the call together with the `int` it leaves at
`pID` (a method that only reads returns the `int` it was given). -/
structure IParameterManager (σ : Type) where
  SetSamplerParameter : RenderParameterRef → Int → σ → σ × Int

namespace SamplerParameterWriterDX11

/-- The constructor `SamplerParameterWriterDX11::SamplerParameterWriterDX11()`: the body is
the single assignment `m_Value = -1`.  `m_pParameter` is not assigned, so it keeps whatever
the member holds when the body starts; that value is the argument `p0`. -/
def ctor (p0 : RenderParameterRef) : SamplerParameterWriterDX11 :=
  { m_pParameter := p0, m_Value := -1 }

/-- The method `SamplerParameterWriterDX11::SetValue( int Value )`: `m_Value = Value;`. -/
def SetValue (w : SamplerParameterWriterDX11) (Value : Int) : SamplerParameterWriterDX11 :=
  { w with m_Value := Value }

/-- The method `SamplerParameterWriterDX11::WriteParameter( IParameterManager* pParamMgr )`:
`pParamMgr->SetSamplerParameter( m_pParameter, &m_Value );`.  `m_pParameter` is passed by
value and `m_Value` by address, so after the call `m_Value` holds what the manager left
there.  Returns the writer after the call together with the manager after the call. -/
def WriteParameter {σ : Type} (I : IParameterManager σ) (w : SamplerParameterWriterDX11)
    (pParamMgr : σ) : SamplerParameterWriterDX11 × σ :=
  let r := I.SetSamplerParameter w.m_pParameter w.m_Value pParamMgr
  ({ w with m_Value := r.2 }, r.1)

end SamplerParameterWriterDX11

/-- One `SetSamplerParameter` call as the manager sees it: the parameter pointer and the
`int` found at `pID`. -/
structure SamplerCall where
  pParameter : RenderParameterRef
  value : Int
deriving DecidableEq, Repr

/-- A manager that does nothing but append every `SetSamplerParameter` call it receives to
a log, leaving the `int` at `pID` as it is; it makes the calls issued by a writer
observable. -/
def CallRecorder : IParameterManager (List SamplerCall) where
  SetSamplerParameter p v log := (log ++ [⟨p, v⟩], v)

/-- A manager that logs every `SetSamplerParameter` call and stores 42 through `pID`. -/
def WritingRecorder : IParameterManager (List SamplerCall) where
  SetSamplerParameter p v log := (log ++ [⟨p, v⟩], 42)

/-- A manager whose state is the last `SetSamplerParameter` call it received (`none`
before the first); it leaves the `int` at `pID` as it is. -/
def LastCallKeeper : IParameterManager (Option SamplerCall) where
  SetSamplerParameter p v _ := (some ⟨p, v⟩, v)

/-- The operations a client can perform on a sampler writer after construction. -/
inductive WriterOp where
  | setValue (Value : Int)
  | writeParameter
deriving DecidableEq, Repr

/-- Perform one operation on a writer, against manager `I`. -/
def WriterOp.run {σ : Type} (I : IParameterManager σ) :
    WriterOp → SamplerParameterWriterDX11 × σ → SamplerParameterWriterDX11 × σ
  | .setValue x, (w, mgr) => (w.SetValue x, mgr)
  | .writeParameter, (w, mgr) => w.WriteParameter I mgr

/-- Perform a sequence of operations, first to last. -/
def runOps {σ : Type} (I : IParameterManager σ) (ops : List WriterOp)
    (s : SamplerParameterWriterDX11 × σ) : SamplerParameterWriterDX11 × σ :=
  ops.foldl (fun s op => op.run I s) s

/-- Call `WriteParameter` `n` times in a row on the same manager. -/
def flushTimes {σ : Type} (I : IParameterManager σ) :
    Nat → SamplerParameterWriterDX11 × σ → SamplerParameterWriterDX11 × σ
  | 0, s => s
  | n + 1, s => flushTimes I n (s.1.WriteParameter I s.2)

/-! ## KinectPlayground: App -/

/-- The event tags of `eEVENT` that `App::HandleEvent` distinguishes, and `other n` for
any other member of the enumeration. -/
inductive eEVENT where
  | SYSTEM_KEYBOARD_KEYDOWN
  | SYSTEM_KEYBOARD_KEYUP
  | SYSTEM_KEYBOARD_CHAR
  | other (tag : Nat)
deriving DecidableEq, Repr

/-- An event as `App::HandleEvent` reads it: `GetEventType()` and, for the keyboard events
`EvtKeyDown` and `EvtKeyUp`, `GetCharacterCode()` (an `unsigned int`). -/
structure IEvent where
  GetEventType : eEVENT
  GetCharacterCode : Nat
deriving DecidableEq, Repr

/-- Windows virtual-key code of the Escape key. -/
def VK_ESCAPE : Nat := 0x1B

/-- Windows virtual-key code of the space bar. -/
def VK_SPACE : Nat := 0x20

/-- Windows virtual-key code of the S key (virtual-key codes of letters are the codes of
the capital letters). -/
def VK_S : Nat := 0x53

/-- The image formats `SaveTextureScreenShot` is given; `App::Update` uses
`D3DX11_IFF_BMP`. -/
inductive D3DX11_IMAGE_FILE_FORMAT where
  | D3DX11_IFF_BMP
  | D3DX11_IFF_JPG
  | D3DX11_IFF_PNG
deriving DecidableEq, Repr

/-- One call `pImmPipeline->SaveTextureScreenShot( index, name, format )`. -/
structure ScreenShotCall where
  index : Nat
  name : String
  format : D3DX11_IMAGE_FILE_FORMAT
deriving DecidableEq, Repr

/-- The application object, as far as `HandleEvent` and `Update` act on it:
* `m_bSaveScreenshot`, the member flag;
* `terminationRequests`, how many times `RequestTermination()` was called on it;
* `presented`, how many times `Update` called `m_pRenderer11->Present`;
* `screenShots`, the `SaveTextureScreenShot` calls made on the immediate pipeline, oldest
  first. -/
structure App where
  m_bSaveScreenshot : Bool
  terminationRequests : Nat
  presented : Nat
  screenShots : List ScreenShotCall
deriving DecidableEq, Repr

/-- The type of `RenderApplication::HandleEvent`, the handler of the parent class: from the
application object and the event to the returned `bool` and the object afterwards.  Its
code is not in `App.cpp`; `App.HandleEvent` takes it as an argument. -/
abbrev ParentHandler := App → IEvent → Bool × App

namespace App

/-- The method `App::GetName()`. -/
def GetName : String := "KinectPlayground"

/-- The method `Application::RequestTermination()`, called by `HandleEvent` on `this`: the request is
recorded on the object. -/
def RequestTermination (this : App) : App :=
  { this with terminationRequests := this.terminationRequests + 1 }

/-- The method `App::HandleEvent( IEvent* pEvent )`.
The key-down branch reads the character code and does nothing with it (its `return` is
commented out), so control reaches the call of the parent handler; the key-up branch
returns `true` for Escape (after `RequestTermination()`) and for Space (after setting
`m_bSaveScreenshot`); everything else goes to `RenderApplication::HandleEvent`. -/
def HandleEvent (parent : ParentHandler) (this : App) (pEvent : IEvent) : Bool × App :=
  let e := pEvent.GetEventType
  if e = eEVENT.SYSTEM_KEYBOARD_KEYDOWN then
    parent this pEvent
  else if e = eEVENT.SYSTEM_KEYBOARD_KEYUP then
    let key := pEvent.GetCharacterCode
    if key = VK_ESCAPE then
      (true, this.RequestTermination)
    else if key = VK_SPACE then
      (true, { this with m_bSaveScreenshot := true })
    else
      parent this pEvent
  else
    parent this pEvent

/-- The method `App::Update()`.  The first part of the body drives engine objects (timer, event
manager, text overlay, scene, and `m_pRenderer11->Present`); of it the model keeps the
count of presented frames.  Then
`if ( m_bSaveScreenshot ) { m_bSaveScreenshot = false; SaveTextureScreenShot( 0, GetName(), D3DX11_IFF_BMP ); }`. -/
def Update (this : App) : App :=
  let this := { this with presented := this.presented + 1 }
  if this.m_bSaveScreenshot then
    { this with
      m_bSaveScreenshot := false
      screenShots := this.screenShots ++ [⟨0, GetName, .D3DX11_IFF_BMP⟩] }
  else
    this

/-- Call `Update` `n` times in a row. -/
def updateTimes : Nat → App → App
  | 0, this => this
  | n + 1, this => updateTimes n this.Update

end App

/-- A parent handler that handles no event: it returns `false` and leaves the object as it
is. -/
def ignoreEvent : ParentHandler := fun this _ => (false, this)

/-- A parent handler that flips the screenshot flag on every event and returns `false`;
its trace on the object tells whether the parent handler was called. -/
def flipFlag : ParentHandler :=
  fun this _ => (false, { this with m_bSaveScreenshot := !this.m_bSaveScreenshot })

/-! ## Lemmas on the sampler writer -/

open SamplerParameterWriterDX11

theorem SetValue_fold_parameter (vs : List Int) (w : SamplerParameterWriterDX11) :
    (vs.foldl SetValue w).m_pParameter = w.m_pParameter := by
  induction vs generalizing w with
  | nil => rfl
  | cons x xs ih => simpa [SetValue] using ih (w.SetValue x)

theorem SetValue_fold_last (vs : List Int) (v : Int) (w : SamplerParameterWriterDX11)
    (h : vs.getLast? = some v) :
    vs.foldl SetValue w = { m_pParameter := w.m_pParameter, m_Value := v } := by
  induction vs generalizing w with
  | nil => simp at h
  | cons x xs ih =>
    cases xs with
    | nil =>
      simp at h
      simp [SetValue, h]
    | cons y ys =>
      have h2 : (y :: ys).getLast? = some v := by
        simpa [List.getLast?_cons_cons] using h
      simpa [SetValue] using ih (w.SetValue x) h2

theorem WriteParameter_of_keeps {σ : Type} (I : IParameterManager σ)
    (hkeep : ∀ p v m, (I.SetSamplerParameter p v m).2 = v)
    (w : SamplerParameterWriterDX11) (mgr : σ) :
    w.WriteParameter I mgr = (w, (I.SetSamplerParameter w.m_pParameter w.m_Value mgr).1) := by
  cases w
  simp [WriteParameter, hkeep]

theorem runOps_parameter {σ : Type} (I : IParameterManager σ) (ops : List WriterOp)
    (s : SamplerParameterWriterDX11 × σ) :
    (runOps I ops s).1.m_pParameter = s.1.m_pParameter := by
  induction ops generalizing s with
  | nil => rfl
  | cons op ops ih =>
    have step : (op.run I s).1.m_pParameter = s.1.m_pParameter := by
      cases op <;> rfl
    have := ih (op.run I s)
    simp only [runOps, List.foldl_cons] at this ⊢
    rw [this, step]

/-! ## Lemmas on the application -/

theorem Update_flag (this : App) : this.Update.m_bSaveScreenshot = false := by
  cases h : this.m_bSaveScreenshot <;> simp [App.Update, h]

theorem Update_of_flag_false (this : App) (h : this.m_bSaveScreenshot = false) :
    this.Update.screenShots = this.screenShots := by
  simp [App.Update, h]

theorem updateTimes_of_flag_false (n : Nat) (app : App)
    (h : app.m_bSaveScreenshot = false) :
    (App.updateTimes n app).screenShots = app.screenShots ∧
      (App.updateTimes n app).m_bSaveScreenshot = false := by
  induction n generalizing app with
  | zero => exact ⟨rfl, h⟩
  | succ n ih =>
    have step := ih app.Update (Update_flag app)
    rw [Update_of_flag_false app h] at step
    exact step

/-! ## The sampler writer: claims C1 to C6 -/

/-- C1: for a writer bound to the parameter `w.m_pParameter`, after any non-empty sequence
`vs` of `SetValue` calls whose last argument is `v`, `WriteParameter` turns every manager
`mgr` into the result of the single call `SetSamplerParameter (w.m_pParameter, v)`, and the
recording manager shows that exactly one call was issued, carrying that parameter and `v`:
the last `SetValue` wins and no earlier payload is delivered. -/
theorem WriteParameter_delivers_last_SetValue {σ : Type} (I : IParameterManager σ)
    (w : SamplerParameterWriterDX11) (vs : List Int) (v : Int) (h : vs.getLast? = some v)
    (mgr : σ) (log : List SamplerCall) :
    ((vs.foldl SetValue w).WriteParameter I mgr).2
        = (I.SetSamplerParameter w.m_pParameter v mgr).1 ∧
      ((vs.foldl SetValue w).WriteParameter CallRecorder log).2
        = log ++ [⟨w.m_pParameter, v⟩] := by
  rw [SetValue_fold_last vs v w h]
  exact ⟨rfl, rfl⟩

/-- Witness of C1: `SetValue(5)`, `SetValue(9)`, then `WriteParameter` on a writer bound to
parameter 7 issues the one call `(7, 9)`. -/
theorem WriteParameter_delivers_last_SetValue_witness :
    [(5 : Int), 9].getLast? = some 9 ∧
      (([(5 : Int), 9].foldl SetValue (ctor 7)).WriteParameter CallRecorder []).2
        = [] ++ [⟨(ctor 7).m_pParameter, 9⟩] :=
  ⟨rfl, (WriteParameter_delivers_last_SetValue CallRecorder (ctor 7) [5, 9] 9 rfl [] []).2⟩

/-- C2: the constructor leaves the payload `-1`, and `WriteParameter` on the freshly
constructed writer (no `SetValue`, no earlier flush) hands every manager the call
`SetSamplerParameter (p0, -1)` for the writer's parameter reference `p0`; the recording
manager logs exactly that one call. -/
theorem WriteParameter_fresh_delivers_minus_one {σ : Type} (I : IParameterManager σ)
    (p0 : RenderParameterRef) (mgr : σ) (log : List SamplerCall) :
    (ctor p0).m_Value = -1 ∧
      ((ctor p0).WriteParameter I mgr).2 = (I.SetSamplerParameter p0 (-1) mgr).1 ∧
      ((ctor p0).WriteParameter CallRecorder log).2 = log ++ [⟨p0, -1⟩] :=
  ⟨rfl, rfl, rfl⟩

/-- C3, as stated, fails: with a manager that stores 42 through the `int*` it is handed,
`WriteParameter` on the writer `(7, 5)` changes the writer's payload to 42, and the second
of two consecutive `WriteParameter` calls delivers `(7, 42)` where the first delivered
`(7, 5)`. -/
theorem WriteParameter_manager_may_write_payload :
    (WriteParameter WritingRecorder ⟨7, 5⟩ []).1 ≠ ⟨7, 5⟩ ∧
      (WriteParameter WritingRecorder ⟨7, 5⟩ []).1 = ⟨7, 42⟩ ∧
      (flushTimes WritingRecorder 1 (⟨7, 5⟩, [])).2 = [⟨7, 5⟩] ∧
      (flushTimes WritingRecorder 2 (⟨7, 5⟩, [])).2 = [⟨7, 5⟩, ⟨7, 42⟩] := by
  decide

/-- C3, amended: for every manager whose `SetSamplerParameter` leaves the `int` at `pID` as
it is, `WriteParameter` returns the writer it was called on (payload and parameter
reference unchanged), also after two calls; two consecutive `WriteParameter` calls deliver
the same (parameter, payload) pair twice, the second to the manager state left by the
first; so the manager state after the second call equals the state after the first
whenever repeating that call leaves the manager state as it is. -/
theorem WriteParameter_idempotent {σ : Type} (I : IParameterManager σ)
    (hkeep : ∀ p v m, (I.SetSamplerParameter p v m).2 = v)
    (w : SamplerParameterWriterDX11) (mgr : σ) (log : List SamplerCall) :
    (w.WriteParameter I mgr).1 = w ∧
      (flushTimes I 2 (w, mgr)).1 = w ∧
      (flushTimes I 2 (w, mgr)).2
        = (I.SetSamplerParameter w.m_pParameter w.m_Value
            (I.SetSamplerParameter w.m_pParameter w.m_Value mgr).1).1 ∧
      (flushTimes CallRecorder 2 (w, log)).2
        = log ++ [⟨w.m_pParameter, w.m_Value⟩, ⟨w.m_pParameter, w.m_Value⟩] ∧
      ((I.SetSamplerParameter w.m_pParameter w.m_Value
            (I.SetSamplerParameter w.m_pParameter w.m_Value mgr).1).1
          = (I.SetSamplerParameter w.m_pParameter w.m_Value mgr).1 →
        (flushTimes I 2 (w, mgr)).2 = (flushTimes I 1 (w, mgr)).2) := by
  have h1 := WriteParameter_of_keeps I hkeep w mgr
  have h2 : flushTimes I 2 (w, mgr)
      = (w, (I.SetSamplerParameter w.m_pParameter w.m_Value
              (I.SetSamplerParameter w.m_pParameter w.m_Value mgr).1).1) := by
    simp only [flushTimes]
    rw [h1]
    exact WriteParameter_of_keeps I hkeep w _
  have h3 : flushTimes I 1 (w, mgr)
      = (w, (I.SetSamplerParameter w.m_pParameter w.m_Value mgr).1) := by
    simp only [flushTimes]
    exact h1
  refine ⟨by rw [h1], by rw [h2], by rw [h2], ?_, ?_⟩
  · simp [flushTimes, WriteParameter, CallRecorder]
  · intro hidem
    rw [h2, h3]
    exact hidem

/-- Witness of C3, amended: the manager that keeps the last call leaves the `int` at `pID`
as it is and is unchanged by a repeated call; on it the writer `(7, 5)` is unchanged by a
flush and the state after two flushes is the state after one. -/
theorem WriteParameter_idempotent_witness :
    (∀ p v m, (LastCallKeeper.SetSamplerParameter p v m).2 = v) ∧
      (WriteParameter LastCallKeeper ⟨7, 5⟩ none).1 = ⟨7, 5⟩ ∧
      (flushTimes LastCallKeeper 2 (⟨7, 5⟩, none)).2
        = (flushTimes LastCallKeeper 1 (⟨7, 5⟩, none)).2 :=
  ⟨fun _ _ _ => rfl,
    (WriteParameter_idempotent LastCallKeeper (fun _ _ _ => rfl) ⟨7, 5⟩ none []).1,
    (WriteParameter_idempotent LastCallKeeper (fun _ _ _ => rfl) ⟨7, 5⟩ none []).2.2.2.2 rfl⟩

/-- C4: `SetValue(x)` makes the payload `x` and keeps the parameter reference, so the
writer afterwards is the old one with only `m_Value` replaced; `WriteParameter` keeps the
parameter reference; and after any sequence of `SetValue` and `WriteParameter` calls the
parameter reference is the one the writer started with. -/
theorem parameter_binding_fixed {σ : Type} (I : IParameterManager σ)
    (w : SamplerParameterWriterDX11) (x : Int) (mgr : σ) (ops : List WriterOp) :
    (w.SetValue x).m_Value = x ∧
      (w.SetValue x).m_pParameter = w.m_pParameter ∧
      w.SetValue x = { m_pParameter := w.m_pParameter, m_Value := x } ∧
      (w.WriteParameter I mgr).1.m_pParameter = w.m_pParameter ∧
      (runOps I ops (w, mgr)).1.m_pParameter = w.m_pParameter :=
  ⟨rfl, rfl, rfl, rfl, runOps_parameter I ops (w, mgr)⟩

/-- C5, as stated, fails: `WriteParameter` on the default-constructed writer whose
parameter pointer is null does forward a write; the manager's log goes from empty to the
one call `(0, -1)`. -/
theorem WriteParameter_unbound_forwards :
    ((ctor 0).WriteParameter CallRecorder []).2 ≠ [] ∧
      ((ctor 0).WriteParameter CallRecorder []).2 = [⟨0, -1⟩] := by
  decide

/-- C5, amended: `WriteParameter` does not check the binding.  On the default-constructed
writer, for every value `p0` its parameter pointer may hold (null included), it forwards
a write: every manager is handed the call `SetSamplerParameter (p0, -1)`, and the
manager's log grows by exactly that one call. -/
theorem WriteParameter_forwards_unchecked {σ : Type} (I : IParameterManager σ)
    (p0 : RenderParameterRef) (mgr : σ) (log : List SamplerCall) :
    ((ctor p0).WriteParameter I mgr).2 = (I.SetSamplerParameter p0 (-1) mgr).1 ∧
      ((ctor 0).WriteParameter I mgr).2 = (I.SetSamplerParameter 0 (-1) mgr).1 ∧
      ((ctor p0).WriteParameter CallRecorder log).2 = log ++ [⟨p0, -1⟩] ∧
      ((ctor p0).WriteParameter CallRecorder log).2.length = log.length + 1 := by
  refine ⟨rfl, rfl, rfl, ?_⟩
  simp [WriteParameter, CallRecorder]

/-- C7, the code at the S key: `App::HandleEvent` has no branch for it.  For every kind of
event carrying the virtual-key code of S (or the character code of the letter s) the
result is exactly what the parent handler returns; with a parent handler that ignores the
event, the key-up of S on an application whose flag is clear is reported as not handled,
leaves the flag clear, and the following `Update` saves no screenshot. -/
theorem HandleEvent_S_key_goes_to_parent (parent : ParentHandler) (app : App)
    (ty : eEVENT) :
    App.HandleEvent parent app ⟨ty, VK_S⟩ = parent app ⟨ty, VK_S⟩ ∧
      App.HandleEvent parent app ⟨ty, 0x73⟩ = parent app ⟨ty, 0x73⟩ ∧
      App.HandleEvent ignoreEvent ⟨false, 0, 0, []⟩ ⟨.SYSTEM_KEYBOARD_KEYUP, VK_S⟩
        = (false, ⟨false, 0, 0, []⟩) ∧
      (App.HandleEvent ignoreEvent ⟨false, 0, 0, []⟩
          ⟨.SYSTEM_KEYBOARD_KEYUP, VK_S⟩).2.Update.screenShots = [] := by
  refine ⟨?_, ?_, by decide, by decide⟩
  · simp only [App.HandleEvent]
    split
    · rfl
    · split
      · simp [VK_S, VK_ESCAPE, VK_SPACE]
      · rfl
  · simp only [App.HandleEvent]
    split
    · rfl
    · split
      · simp [VK_ESCAPE, VK_SPACE]
      · rfl

/-- C8: the key-up of Space is handled by `App::HandleEvent` itself (it returns `true`,
whatever the parent handler is) and changes nothing but the flag, which it sets; the next
`Update` appends exactly one `SaveTextureScreenShot( 0, "KinectPlayground", BMP )` call and
clears the flag; after any number `n` of further `Update` calls the saved screenshots are
still those and the flag is clear; and the flag is clear after every `Update`. -/
theorem Space_keyup_saves_one_screenshot (parent : ParentHandler) (app other : App)
    (n : Nat) :
    App.HandleEvent parent app ⟨.SYSTEM_KEYBOARD_KEYUP, VK_SPACE⟩
        = (true, { app with m_bSaveScreenshot := true }) ∧
      (App.HandleEvent parent app ⟨.SYSTEM_KEYBOARD_KEYUP, VK_SPACE⟩).2.Update.screenShots
        = app.screenShots ++ [⟨0, "KinectPlayground", .D3DX11_IFF_BMP⟩] ∧
      (App.HandleEvent parent app
          ⟨.SYSTEM_KEYBOARD_KEYUP, VK_SPACE⟩).2.Update.m_bSaveScreenshot = false ∧
      (App.updateTimes n
          (App.HandleEvent parent app ⟨.SYSTEM_KEYBOARD_KEYUP, VK_SPACE⟩).2.Update).screenShots
        = app.screenShots ++ [⟨0, "KinectPlayground", .D3DX11_IFF_BMP⟩] ∧
      (App.updateTimes n
          (App.HandleEvent parent app
            ⟨.SYSTEM_KEYBOARD_KEYUP, VK_SPACE⟩).2.Update).m_bSaveScreenshot = false ∧
      other.Update.m_bSaveScreenshot = false := by
  have hev : App.HandleEvent parent app ⟨.SYSTEM_KEYBOARD_KEYUP, VK_SPACE⟩
      = (true, { app with m_bSaveScreenshot := true }) := by
    simp [App.HandleEvent, VK_SPACE, VK_ESCAPE]
  have hup : ({ app with m_bSaveScreenshot := true } : App).Update.screenShots
      = app.screenShots ++ [⟨0, "KinectPlayground", .D3DX11_IFF_BMP⟩] := by
    simp [App.Update, App.GetName]
  have hrest := updateTimes_of_flag_false n
    ({ app with m_bSaveScreenshot := true } : App).Update (Update_flag _)
  rw [hev]
  refine ⟨rfl, hup, Update_flag _, ?_, hrest.2, Update_flag _⟩
  rw [hrest.1, hup]

/-- C9: on every key-up event whose character code is Escape, `App::HandleEvent` returns
`true` and the application object afterwards is the old one with one more termination
request recorded: the screenshot flag is as before, and the result is the same whatever
the parent handler is, so the parent handler has no part in it. -/
theorem Escape_keyup_requests_termination (parent parent1 : ParentHandler) (app : App)
    (pEvent : IEvent) (hty : pEvent.GetEventType = eEVENT.SYSTEM_KEYBOARD_KEYUP)
    (hkey : pEvent.GetCharacterCode = VK_ESCAPE) :
    App.HandleEvent parent app pEvent = (true, app.RequestTermination) ∧
      (App.HandleEvent parent app pEvent).2.terminationRequests
        = app.terminationRequests + 1 ∧
      (App.HandleEvent parent app pEvent).2.m_bSaveScreenshot = app.m_bSaveScreenshot ∧
      App.HandleEvent parent app pEvent = App.HandleEvent parent1 app pEvent := by
  have hev : ∀ p : ParentHandler, App.HandleEvent p app pEvent
      = (true, app.RequestTermination) := by
    intro p
    simp [App.HandleEvent, hty, hkey]
  rw [hev parent, hev parent1]
  exact ⟨rfl, rfl, rfl, rfl⟩

/-- Witness of C9: the Escape key-up on an application with the flag set, under a parent
handler that would flip the flag if it were called. -/
theorem Escape_keyup_requests_termination_witness :
    (⟨.SYSTEM_KEYBOARD_KEYUP, VK_ESCAPE⟩ : IEvent).GetEventType
        = eEVENT.SYSTEM_KEYBOARD_KEYUP ∧
      (⟨.SYSTEM_KEYBOARD_KEYUP, VK_ESCAPE⟩ : IEvent).GetCharacterCode = VK_ESCAPE ∧
      App.HandleEvent flipFlag ⟨true, 0, 3, []⟩ ⟨.SYSTEM_KEYBOARD_KEYUP, VK_ESCAPE⟩
        = (true, ⟨true, 1, 3, []⟩) :=
  ⟨rfl, rfl,
    (Escape_keyup_requests_termination flipFlag ignoreEvent ⟨true, 0, 3, []⟩
      ⟨.SYSTEM_KEYBOARD_KEYUP, VK_ESCAPE⟩ rfl rfl).1⟩

end Glyph3
